import Mathlib

/-!
Verification of the gossip transport core in
`src/validator/sawtooth_validator/server/network.py`.

The Python module is shallowly embedded below.  Byte strings are modelled
as `List Nat` (each element a byte value), Python `dict`s with string keys
as association lists with first-match lookup, and the mutable state touched
by each operation is passed explicitly.  Library calls (protobuf
serialization, `hashlib`) that the module invokes are either modelled from
their documented behaviour or taken as parameters of the embedded
functions, so the theorems quantify over them.
-/

namespace SawtoothNetwork

/-- Byte strings (Python `bytes`): a list of byte values. -/
abbrev Bytes := List Nat

/-- The wire unit `validator_pb2.Message`: `message_type`, `correlation_id`,
`content`, and the `sender` identity stamped by the server on receive. -/
structure Envelope where
  message_type : String
  correlation_id : String
  content : Bytes
  sender : String
  deriving DecidableEq

/-- `future.FutureResult`: the `(message_type, content)` pair delivered into
a pending future. -/
structure FutureResult where
  message_type : String
  content : Bytes
  deriving DecidableEq

/-! ### Python `dict` with string keys, as an association list -/

/-- A Python `dict` keyed by strings, embedded as an association list in
insertion order. -/
abbrev Dict (α : Type) := List (String × α)

/-- Python `k in d.keys()` / `k in d`. -/
def dContains (d : Dict α) (k : String) : Bool :=
  d.any (fun p => decide (p.1 = k))

/-- Python `d[k]` as an `Option` (first matching entry). -/
def dGet (d : Dict α) (k : String) : Option α :=
  (d.find? (fun p => decide (p.1 = k))).map Prod.snd

/-- Python `del d[k]`: drop every entry with key `k`, preserving order. -/
def dDelete (d : Dict α) (k : String) : Dict α :=
  d.filter (fun p => !(decide (p.1 = k)))

/-- The keys of the dict, in order. -/
def dKeys (d : Dict α) : List String :=
  d.map Prod.fst

/-! ### PeerRegistry (`Network._peered_with_us`: dict sender -> record list) -/

/-- `Network._peered_with_us`: sender identity -> list of recorded values. -/
abbrev PeerRegistry := Dict (List String)

/-- Python `d[k].append(data)` on a record dict: append `data` to the list
stored under `k`, leaving other entries unchanged. -/
def dAppendAt (d : PeerRegistry) (k : String) (data : String) : PeerRegistry :=
  d.map (fun p => if p.1 = k then (p.1, p.2 ++ [data]) else p)

/-- `Network.register_peer(sender, identity)` from network.py lines 588-598:
`data = sender`; create an empty entry when `sender` is absent; then append
`data` (the sender itself — the `identity` argument is never used). -/
def register_peer (reg : PeerRegistry) (sender identity : String) : PeerRegistry :=
  let data := sender
  let reg1 := if dContains reg sender then reg else reg ++ [(sender, ([] : List String))]
  dAppendAt reg1 sender data

/-- `Network.unregister_peer(sender, identity)` from network.py lines 600-609:
delete the whole entry keyed by `sender` when present; the `identity`
argument is never used, and an absent sender raises nothing. -/
def unregister_peer (reg : PeerRegistry) (sender identity : String) : PeerRegistry :=
  if dContains reg sender then dDelete reg sender else reg

/-! ### Dict lemmas -/

theorem dContains_cons (p : String × α) (t : Dict α) (k : String) :
    dContains (p :: t) k = (decide (p.1 = k) || dContains t k) := by
  simp [dContains]

theorem dGet_cons (p : String × α) (t : Dict α) (k : String) :
    dGet (p :: t) k = if p.1 = k then some p.2 else dGet t k := by
  by_cases h : p.1 = k
  · simp [dGet, h, List.find?_cons_of_pos]
  · rw [dGet, List.find?_cons_of_neg _ (by simp [h]), if_neg h]; rfl

theorem dDelete_cons (p : String × α) (t : Dict α) (k : String) :
    dDelete (p :: t) k = if p.1 = k then dDelete t k else p :: dDelete t k := by
  by_cases h : p.1 = k <;> simp [dDelete, List.filter_cons, h]

theorem dAppendAt_cons (p : String × List String) (t : PeerRegistry)
    (k data : String) :
    dAppendAt (p :: t) k data =
      (if p.1 = k then (p.1, p.2 ++ [data]) else p) :: dAppendAt t k data := by
  simp [dAppendAt]

theorem dContains_append_singleton (d : Dict α) (k : String) (v : α) :
    dContains (d ++ [(k, v)]) k = true := by
  induction d with
  | nil => simp [dContains]
  | cons p t ih => simp only [List.cons_append, dContains_cons, ih, Bool.or_true]

theorem dAppendAt_of_not_contains {d : PeerRegistry} {k : String}
    (h : dContains d k = false) (data : String) : dAppendAt d k data = d := by
  induction d with
  | nil => rfl
  | cons p t ih =>
    rw [dContains_cons] at h
    simp only [Bool.or_eq_false_iff, decide_eq_false_iff_not] at h
    rw [dAppendAt_cons, if_neg h.1, ih h.2]

theorem dDelete_of_not_contains {d : Dict α} {k : String}
    (h : dContains d k = false) : dDelete d k = d := by
  induction d with
  | nil => rfl
  | cons p t ih =>
    rw [dContains_cons] at h
    simp only [Bool.or_eq_false_iff, decide_eq_false_iff_not] at h
    rw [dDelete_cons, if_neg h.1, ih h.2]

theorem dDelete_append (d₁ d₂ : Dict α) (k : String) :
    dDelete (d₁ ++ d₂) k = dDelete d₁ k ++ dDelete d₂ k := by
  simp [dDelete, List.filter_append]

theorem dAppendAt_append (d₁ d₂ : PeerRegistry) (k : String) (data : String) :
    dAppendAt (d₁ ++ d₂) k data = dAppendAt d₁ k data ++ dAppendAt d₂ k data := by
  simp [dAppendAt]

theorem dKeys_dAppendAt (d : PeerRegistry) (k : String) (data : String) :
    dKeys (dAppendAt d k data) = dKeys d := by
  induction d with
  | nil => rfl
  | cons p t ih =>
    rw [dAppendAt_cons, dKeys, List.map_cons, ← dKeys, ih]
    by_cases h : p.1 = k
    · rw [if_pos h]; rfl
    · rw [if_neg h]; rfl

theorem dContains_dAppendAt (d : PeerRegistry) (k q : String) (data : String) :
    dContains (dAppendAt d k data) q = dContains d q := by
  induction d with
  | nil => rfl
  | cons p t ih =>
    rw [dAppendAt_cons, dContains_cons, ih, dContains_cons]
    by_cases h : p.1 = k
    · rw [if_pos h]
    · rw [if_neg h]

theorem dGet_dAppendAt_self (d : PeerRegistry) (k : String) (data : String) :
    dGet (dAppendAt d k data) k = (dGet d k).map (fun l => l ++ [data]) := by
  induction d with
  | nil => rfl
  | cons p t ih =>
    rw [dAppendAt_cons]
    by_cases h : p.1 = k
    · rw [if_pos h, dGet_cons, dGet_cons, if_pos h, if_pos h]; rfl
    · rw [if_neg h, dGet_cons, dGet_cons, if_neg h, if_neg h, ih]

theorem dGet_dAppendAt_other (d : PeerRegistry) {k q : String} (hq : q ≠ k)
    (data : String) : dGet (dAppendAt d k data) q = dGet d q := by
  induction d with
  | nil => rfl
  | cons p t ih =>
    rw [dAppendAt_cons]
    by_cases h : p.1 = k
    · have hpq : ¬ (p.1 = q) := fun hc => hq (hc ▸ h)
      rw [if_pos h, dGet_cons, dGet_cons, if_neg hpq, if_neg hpq, ih]
    · rw [if_neg h, dGet_cons, dGet_cons, ih]

theorem dGet_none_of_not_contains {d : Dict α} {k : String}
    (h : dContains d k = false) : dGet d k = none := by
  induction d with
  | nil => rfl
  | cons p t ih =>
    rw [dContains_cons] at h
    simp only [Bool.or_eq_false_iff, decide_eq_false_iff_not] at h
    rw [dGet_cons, if_neg h.1, ih h.2]

theorem dContains_dDelete (d : Dict α) (k : String) :
    dContains (dDelete d k) k = false := by
  induction d with
  | nil => rfl
  | cons p t ih =>
    rw [dDelete_cons]
    by_cases h : p.1 = k
    · rw [if_pos h]; exact ih
    · rw [if_neg h, dContains_cons, ih]
      simp [h]

theorem dGet_dDelete_other (d : Dict α) {k q : String} (hq : q ≠ k) :
    dGet (dDelete d k) q = dGet d q := by
  induction d with
  | nil => rfl
  | cons p t ih =>
    rw [dDelete_cons]
    by_cases h : p.1 = k
    · have hpq : ¬ (p.1 = q) := fun hc => hq (hc ▸ h)
      rw [if_pos h, dGet_cons, if_neg hpq, ih]
    · rw [if_neg h, dGet_cons, dGet_cons, ih]

theorem dGet_isSome_of_contains {d : Dict α} {k : String}
    (h : dContains d k = true) : (dGet d k).isSome = true := by
  induction d with
  | nil => simp [dContains] at h
  | cons p t ih =>
    rw [dContains_cons] at h
    rw [dGet_cons]
    by_cases hp : p.1 = k
    · simp [hp]
    · simp [hp] at h
      rw [if_neg hp]
      exact ih h

theorem dGet_append_of_not_contains {d₁ : Dict α} (d₂ : Dict α) {k : String}
    (h : dContains d₁ k = false) : dGet (d₁ ++ d₂) k = dGet d₂ k := by
  induction d₁ with
  | nil => rfl
  | cons p t ih =>
    rw [dContains_cons] at h
    simp only [Bool.or_eq_false_iff, decide_eq_false_iff_not] at h
    rw [List.cons_append, dGet_cons, if_neg h.1, ih h.2]

/-! ### Registry lemmas -/

theorem dContains_register_peer_self (reg : PeerRegistry) (s i : String) :
    dContains (register_peer reg s i) s = true := by
  unfold register_peer
  by_cases h : dContains reg s = true
  · rw [if_pos h, dContains_dAppendAt, h]
  · rw [if_neg h, dContains_dAppendAt]
    exact dContains_append_singleton reg s []

theorem dGet_register_peer_self (reg : PeerRegistry) (s i : String) :
    dGet (register_peer reg s i) s = some ((dGet reg s).getD [] ++ [s]) := by
  unfold register_peer
  by_cases h : dContains reg s = true
  · rw [if_pos h, dGet_dAppendAt_self]
    obtain ⟨v, hv⟩ := Option.isSome_iff_exists.mp (dGet_isSome_of_contains h)
    rw [hv]; rfl
  · have h' : dContains reg s = false := Bool.not_eq_true _ ▸ Bool.of_not_eq_true h
    rw [if_neg h, dAppendAt_append, dAppendAt_of_not_contains h',
        dGet_append_of_not_contains _ h', dGet_none_of_not_contains h']
    simp [dAppendAt, dGet_cons]

theorem dKeys_register_peer (reg : PeerRegistry) (s i : String) :
    dKeys (register_peer reg s i) =
      if dContains reg s = true then dKeys reg else dKeys reg ++ [s] := by
  unfold register_peer
  by_cases h : dContains reg s = true
  · rw [if_pos h, if_pos h, dKeys_dAppendAt]
  · rw [if_neg h, if_neg h, dKeys_dAppendAt]
    simp [dKeys]

/-! ### Claims about the peer registry -/

/-- C3 counterexample: starting from a registry in which sender `p` is
already present, `register_peer` followed by `unregister_peer` does NOT
restore the original state — the pair deletes `p`'s entry entirely. -/
theorem register_unregister_roundtrip_cex :
    unregister_peer (register_peer [("p", ["p"])] "p" "i") "p" "i" = [] ∧
      ([] : PeerRegistry) ≠ [("p", ["p"])] := by decide

/-- C3 (amended): for every registry state in which sender `p` is absent,
`register_peer p i` immediately followed by `unregister_peer p i'` restores
the registry to exactly its previous state; when `p` is already present the
pair instead removes `p`'s entire entry. -/
theorem register_unregister_roundtrip (reg : PeerRegistry) (p i i' : String)
    (h : dContains reg p = false) :
    unregister_peer (register_peer reg p i) p i' = reg := by
  have hreg : register_peer reg p i = reg ++ [(p, [p])] := by
    unfold register_peer
    rw [if_neg (by simp [h]), dAppendAt_append, dAppendAt_of_not_contains h]
    simp [dAppendAt]
  rw [hreg]
  unfold unregister_peer
  rw [if_pos (dContains_append_singleton reg p [p]), dDelete_append,
      dDelete_of_not_contains h]
  simp [dDelete]

/-- Witness for C3 (amended) at a concrete registry where `p` is absent. -/
theorem register_unregister_roundtrip_witness :
    dContains [("q", ["q"])] "p" = false ∧
      unregister_peer (register_peer [("q", ["q"])] "p" "i") "p" "j"
        = [("q", ["q"])] :=
  ⟨by decide, register_unregister_roundtrip [("q", ["q"])] "p" "i" "j" (by decide)⟩

/-- C6 counterexample: two `register_peer` calls with the same sender and
identity leave the entry `["s", "s"]` under `"s"` — the stored records are
duplicated, not deduplicated. -/
theorem register_twice_duplicates_cex :
    dGet (register_peer (register_peer [] "s" "i") "s" "i") "s"
        = some ["s", "s"] ∧
      ¬ (["s", "s"] : List String).Nodup := by decide

/-- C6 (amended): re-registration of the same sender is idempotent for
presence (the key list is unchanged by the second call), but the record
list accumulates: after two register calls the entry for the sender holds
its previous records followed by two copies of the sender value. -/
theorem register_peer_presence_idempotent_records_accumulate
    (reg : PeerRegistry) (s i i' : String) :
    dKeys (register_peer (register_peer reg s i) s i')
        = dKeys (register_peer reg s i) ∧
      dGet (register_peer (register_peer reg s i) s i') s
        = some ((dGet reg s).getD [] ++ [s, s]) := by
  constructor
  · rw [dKeys_register_peer, if_pos (dContains_register_peer_self reg s i)]
  · rw [dGet_register_peer_self, dGet_register_peer_self]
    simp

/-- C7: for a sender `p` present in the registry, `unregister_peer` ignores
the identity argument entirely: any two identities produce the same result,
the whole record list keyed by `p` is removed, and every other entry is
untouched. -/
theorem unregister_peer_removes_whole_key (reg : PeerRegistry) (p i i' : String)
    (h : dContains reg p = true) :
    unregister_peer reg p i = unregister_peer reg p i' ∧
      unregister_peer reg p i = dDelete reg p ∧
      dGet (unregister_peer reg p i) p = none ∧
      ∀ q, q ≠ p → dGet (unregister_peer reg p i) q = dGet reg q := by
  refine ⟨rfl, ?_, ?_, ?_⟩
  · unfold unregister_peer; rw [if_pos h]
  · unfold unregister_peer; rw [if_pos h]
    exact dGet_none_of_not_contains (dContains_dDelete reg p)
  · intro q hq
    unfold unregister_peer; rw [if_pos h]
    exact dGet_dDelete_other reg hq

/-- Witness for C7 at a concrete two-entry registry. -/
theorem unregister_peer_removes_whole_key_witness :
    dContains [("p", ["p", "p"]), ("q", ["q"])] "p" = true ∧
      dGet (unregister_peer [("p", ["p", "p"]), ("q", ["q"])] "p" "i") "p"
        = none :=
  ⟨by decide,
   (unregister_peer_removes_whole_key [("p", ["p", "p"]), ("q", ["q"])]
      "p" "i" "j" (by decide)).2.2.1⟩

/-- C10: unregistering a sender that is not present in the registry is a
silent no-op: `unregister_peer` is a total function (no error path) and
returns the registry unchanged. -/
theorem unregister_peer_absent_noop (reg : PeerRegistry) (p i : String)
    (h : dContains reg p = false) : unregister_peer reg p i = reg := by
  unfold unregister_peer
  rw [if_neg (by simp [h])]

/-- Witness for C10 at a concrete registry not containing the sender. -/
theorem unregister_peer_absent_noop_witness :
    dContains [("q", ["q"])] "p" = false ∧
      unregister_peer [("q", ["q"])] "p" "i" = [("q", ["q"])] :=
  ⟨by decide, unregister_peer_absent_noop [("q", ["q"])] "p" "i" (by decide)⟩

/-! ### FutureCollection (future.py) and the receive loops -/

/-- Modelled from the spec: `future.FutureCollection` (future.py is not under
src/).  A table of pending futures keyed by `correlation_id`; `set_result`
completes the matching future and raises `FutureCollectionKeyError` (the
unknown-correlation error) when no future with that id is live. -/
abbrev FutureCollection := Dict (Option FutureResult)

/-- Completing the future stored under `cid` with `res`. -/
def fcComplete (fc : FutureCollection) (cid : String) (res : FutureResult) :
    FutureCollection :=
  fc.map (fun p => if p.1 = cid then (p.1, some res) else p)

/-- Modelled from the spec: `FutureCollection.set_result`.  Returns the
updated collection, or `none` for `FutureCollectionKeyError` when `cid`
does not name a live future. -/
def fcSetResult (fc : FutureCollection) (cid : String) (res : FutureResult) :
    Option FutureCollection :=
  if dContains fc cid then some (fcComplete fc cid res) else none

/-- The externally visible outcome of processing one received envelope:
either a pending future was completed (and no handler ran), or the envelope
was dispatched to the handler stored under `handlerKey`. -/
inductive ReceiveAction where
  | futureCompleted (correlation_id : String) (result : FutureResult)
  | handled (handlerKey : String) (message : Envelope)
  deriving DecidableEq

/-- One iteration of `_ServerSendReceiveThread._receive_message`
(network.py lines 299-319): stamp the routing identity into `sender`, try
`futures.set_result`; on `FutureCollectionKeyError` look the type up in the
handler dict, falling back to the `"default"` entry. -/
def server_receive_message (fc : FutureCollection) (handlers : Dict α)
    (ident : String) (raw : Envelope) : FutureCollection × ReceiveAction :=
  let message := { raw with sender := ident }
  match fcSetResult fc message.correlation_id
      ⟨message.message_type, message.content⟩ with
  | some fc' =>
      (fc', .futureCompleted message.correlation_id
              ⟨message.message_type, message.content⟩)
  | none =>
      (fc, .handled
             (if dContains handlers message.message_type then
                message.message_type
              else "default")
             message)

/-- One iteration of the body of `_ClientSendReceiveThread._receive_message`
(network.py lines 186-204) for a single envelope of the received list: try
`futures.set_result`; on `FutureCollectionKeyError` dispatch by handler
table (or `"default"`) and append the message to `_recv_queue`. -/
def client_receive_message (fc : FutureCollection) (handlers : Dict α)
    (recvQueue : List Envelope) (message : Envelope) :
    FutureCollection × List Envelope × ReceiveAction :=
  match fcSetResult fc message.correlation_id
      ⟨message.message_type, message.content⟩ with
  | some fc' =>
      (fc', recvQueue,
       .futureCompleted message.correlation_id
         ⟨message.message_type, message.content⟩)
  | none =>
      (fc, recvQueue ++ [message],
       .handled
         (if dContains handlers message.message_type then
            message.message_type
          else "default")
         message)

/-- C1: on both receive loops, each envelope takes exactly one of two
mutually exclusive paths decided by whether its `correlation_id` names a
live future: if so, that future is completed with the envelope's
`(message_type, content)` and no handler runs; otherwise the futures table
is untouched and the envelope is dispatched to the handler registered for
its `message_type`, or to `"default"` when none is registered. -/
theorem receive_reply_xor_dispatch {α : Type} (fc : FutureCollection)
    (handlers : Dict α) (ident : String) (msg : Envelope)
    (recvQueue : List Envelope) :
    (dContains fc msg.correlation_id = true →
      server_receive_message fc handlers ident msg
          = (fcComplete fc msg.correlation_id ⟨msg.message_type, msg.content⟩,
             ReceiveAction.futureCompleted msg.correlation_id
               ⟨msg.message_type, msg.content⟩) ∧
      client_receive_message fc handlers recvQueue msg
          = (fcComplete fc msg.correlation_id ⟨msg.message_type, msg.content⟩,
             recvQueue,
             ReceiveAction.futureCompleted msg.correlation_id
               ⟨msg.message_type, msg.content⟩)) ∧
    (dContains fc msg.correlation_id = false →
      server_receive_message fc handlers ident msg
          = (fc, ReceiveAction.handled
                   (if dContains handlers msg.message_type then
                      msg.message_type
                    else "default")
                   { msg with sender := ident }) ∧
      client_receive_message fc handlers recvQueue msg
          = (fc, recvQueue ++ [msg],
             ReceiveAction.handled
               (if dContains handlers msg.message_type then
                  msg.message_type
                else "default")
               msg)) := by
  constructor
  · intro h
    constructor
    · simp [server_receive_message, fcSetResult, h]
    · simp [client_receive_message, fcSetResult, h]
  · intro h
    constructor
    · simp [server_receive_message, fcSetResult, h]
    · simp [client_receive_message, fcSetResult, h]

/-- Witness for C1: a concrete live-future case on the server loop. -/
theorem receive_reply_xor_dispatch_witness :
    dContains [("abc", (none : Option FutureResult))] "abc" = true ∧
      (server_receive_message [("abc", none)] [("gossip/msg", 0)] "peer1"
            { message_type := "gossip/msg", correlation_id := "abc",
              content := [7], sender := "" }
          = (fcComplete [("abc", none)] "abc" ⟨"gossip/msg", [7]⟩,
             ReceiveAction.futureCompleted "abc" ⟨"gossip/msg", [7]⟩) ∧
       client_receive_message [("abc", none)] [("gossip/msg", 0)] []
            { message_type := "gossip/msg", correlation_id := "abc",
              content := [7], sender := "" }
          = (fcComplete [("abc", none)] "abc" ⟨"gossip/msg", [7]⟩, [],
             ReceiveAction.futureCompleted "abc" ⟨"gossip/msg", [7]⟩)) :=
  ⟨by decide,
   (receive_reply_xor_dispatch [("abc", none)] [("gossip/msg", 0)] "peer1"
      { message_type := "gossip/msg", correlation_id := "abc",
        content := [7], sender := "" } []).1 (by decide)⟩

/-! ### Wire framing (C2) -/

/-- The container actually serialized onto the wire for one transmission:
either one bare `validator_pb2.Message`, or a `validator_pb2.MessageList`. -/
inductive WireFrame where
  | singleMsg (e : Envelope)
  | msgList (es : List Envelope)
  deriving DecidableEq

/-- `_ClientSendReceiveThread._send_message` (network.py lines 211-215):
the client serializes the bare message — no `MessageList` wrapper. -/
def client_send_frame (msg : Envelope) : WireFrame :=
  .singleMsg msg

/-- `_ServerSendReceiveThread._send_message` (network.py lines 326-334):
the server sends a multipart `[sender, MessageList(messages=[msg])]` —
a singleton `MessageList` wrapper. -/
def server_send_frame (msg : Envelope) : String × WireFrame :=
  (msg.sender, .msgList [msg])

/-- `_ClientSendReceiveThread._receive_message` (network.py lines 182-186)
parses the received bytes as a `MessageList` and iterates its envelopes. -/
def client_receive_frame : WireFrame → Option (List Envelope)
  | .msgList es => some es
  | .singleMsg _ => none

/-- `_ServerSendReceiveThread._receive_message` (network.py lines 300-304)
parses the payload part of the multipart frame as one bare `Message`. -/
def server_receive_frame : WireFrame → Option Envelope
  | .singleMsg e => some e
  | .msgList _ => none

/-- Whether a frame is an `EnvelopeList` (`MessageList`) container. -/
def isEnvelopeList : WireFrame → Bool
  | .msgList _ => true
  | .singleMsg _ => false

/-- C2 counterexample: a concrete envelope sent on the client-to-server
direction is transmitted bare, not wrapped in an `EnvelopeList`. -/
theorem client_send_not_wrapped_cex :
    isEnvelopeList (client_send_frame
        { message_type := "gossip/msg", correlation_id := "c",
          content := [], sender := "" }) = false := by decide

/-- C2 (amended): only the server-to-client direction wraps each envelope
in an `EnvelopeList` (even singletons), and only the client receiver
iterates a list; the client-to-server direction sends a bare envelope,
which the server parses as a single `Message` per frame. -/
theorem wire_framing_asymmetric (msg e : Envelope) (es : List Envelope) :
    server_send_frame msg = (msg.sender, WireFrame.msgList [msg]) ∧
      client_receive_frame (WireFrame.msgList es) = some es ∧
      client_send_frame msg = WireFrame.singleMsg msg ∧
      server_receive_frame (WireFrame.singleMsg e) = some e :=
  ⟨rfl, rfl, rfl, rfl⟩

/-! ### Broadcast fan-out (C4) -/

/-- A `Connection` as constructed by
`_ServerSendReceiveThread.add_connection` (network.py lines 377-380). -/
structure Connection where
  identity : String
  url : String
  deriving DecidableEq

/-- `add_connection(server_identity, url)`: append a new `Connection` to
the outbound connection list. -/
def add_connection (conns : List Connection) (server_identity url : String) :
    List Connection :=
  conns ++ [{ identity := server_identity, url := url }]

/-- One drain iteration of `_ServerSendReceiveThread._broadcast_message`
(network.py lines 357-362): take one envelope off the broadcast queue and
call `send_message` on every connection in the current list, in order.  The
result lists the `(connection, envelope)` send calls made. -/
def broadcast_drain (conns : List Connection) (msg : Envelope) :
    List (Connection × Envelope) :=
  conns.map (fun c => (c, msg))

/-- C4: draining a broadcast envelope with N connections in the list makes
exactly N send calls — one per occurrence of each connection — and a
connection absent from the list at drain time (e.g. added afterwards)
receives nothing. -/
theorem broadcast_exactly_once (conns : List Connection) (msg : Envelope) :
    (broadcast_drain conns msg).length = conns.length ∧
      (∀ c : Connection,
        (broadcast_drain conns msg).countP (fun d => d.1 = c ∧ d.2 = msg)
          = conns.countP (fun x => x = c)) ∧
      (∀ c : Connection, c ∉ conns →
        ∀ e : Envelope, (c, e) ∉ broadcast_drain conns msg) := by
  refine ⟨by simp [broadcast_drain], ?_, ?_⟩
  · intro c
    rw [broadcast_drain, List.countP_map]
    apply List.countP_congr
    intro x _
    simp
  · intro c hc e
    simp only [broadcast_drain, List.mem_map]
    rintro ⟨a, ha, hae⟩
    exact hc ((Prod.mk.injEq _ _ _ _).mp hae |>.1 ▸ ha)

/-- Witness for C4: two connections get exactly two sends; a third
connection added only after the drain gets none. -/
theorem broadcast_exactly_once_witness :
    (⟨"c3", "u3"⟩ : Connection) ∉
        [(⟨"c1", "u1"⟩ : Connection), ⟨"c2", "u2"⟩] ∧
      ((⟨"c3", "u3"⟩ : Connection),
        ({ message_type := "gossip/msg", correlation_id := "x",
           content := [], sender := "" } : Envelope)) ∉
        broadcast_drain [⟨"c1", "u1"⟩, ⟨"c2", "u2"⟩]
          { message_type := "gossip/msg", correlation_id := "x",
            content := [], sender := "" } :=
  ⟨by decide,
   (broadcast_exactly_once [⟨"c1", "u1"⟩, ⟨"c2", "u2"⟩]
      { message_type := "gossip/msg", correlation_id := "x",
        content := [], sender := "" }).2.2 ⟨"c3", "u3"⟩ (by decide) _⟩

/-! ### Protobuf payloads and the Network handler state -/

/-- Modelled from the spec: `network_pb2.PeerRegisterRequest` (the protobuf
definitions are not under src/); it carries the registering peer's
`identity`. -/
structure PeerRegisterRequest where
  identity : String
  deriving DecidableEq

/-- Modelled from the spec: `network_pb2.GossipMessage` — `content` bytes
plus a `content_type` tag. -/
structure GossipMessage where
  content : Bytes
  content_type : String
  deriving DecidableEq

/-- Modelled from the spec: the status carried by
`network_pb2.NetworkAcknowledgement` (`status ∈ {OK, …}`). -/
inductive AckStatus where
  | OK
  | ERROR
  deriving DecidableEq

/-- Modelled from the spec: `network_pb2.NetworkAcknowledgement`. -/
structure NetworkAcknowledgement where
  status : AckStatus
  deriving DecidableEq

/-- The mutable state of `Network` touched by the built-in handlers: the
peer registry `_peered_with_us`, the inbound queue, and the number of
`notify_all` calls made on the signature condition (the verification
stage's wake-up signal). -/
structure NetworkState where
  _peered_with_us : PeerRegistry
  inbound_queue : List GossipMessage
  signature_notifications : Nat
  deriving DecidableEq

/-- `Network._put_on_inbound` (network.py lines 577-580): `put_nowait` the
item onto the inbound queue, then `notify_all` the signature condition. -/
def _put_on_inbound (s : NetworkState) (item : GossipMessage) : NetworkState :=
  { s with inbound_queue := s.inbound_queue ++ [item],
           signature_notifications := s.signature_notifications + 1 }

/-- `PeerRegisterHandler.handle` (network.py lines 408-426), parameterized
by the protobuf decoder for `PeerRegisterRequest` and the encoder for
`NetworkAcknowledgement`: parse the payload, call
`register_peer(message.sender, request.identity)`, and send back one
`gossip/ack` with status OK echoing the originator's correlation id.
Returns the new state and the envelopes sent through the responder. -/
def PeerRegisterHandler_handle (parseRegister : Bytes → PeerRegisterRequest)
    (serializeAck : NetworkAcknowledgement → Bytes)
    (s : NetworkState) (message : Envelope) : NetworkState × List Envelope :=
  let request := parseRegister message.content
  let s' := { s with
    _peered_with_us :=
      register_peer s._peered_with_us message.sender request.identity }
  (s', [{ sender := message.sender,
          message_type := "gossip/ack",
          correlation_id := message.correlation_id,
          content := serializeAck { status := AckStatus.OK } }])

/-- `GossipMessageHandler.handle` (network.py lines 458-476), parameterized
by the protobuf decoder for `GossipMessage` and the encoder for
`NetworkAcknowledgement`: parse the payload, `_put_on_inbound` the parsed
item, and send back one `gossip/ack` with status OK echoing the
originator's correlation id. -/
def GossipMessageHandler_handle (parseGossip : Bytes → GossipMessage)
    (serializeAck : NetworkAcknowledgement → Bytes)
    (s : NetworkState) (message : Envelope) : NetworkState × List Envelope :=
  let request := parseGossip message.content
  let s' := _put_on_inbound s request
  (s', [{ sender := message.sender,
          message_type := "gossip/ack",
          correlation_id := message.correlation_id,
          content := serializeAck { status := AckStatus.OK } }])

/-- C5 counterexample: handling a register envelope from sender `"s"` whose
payload carries identity `"i"` stores the record `"s"` (the sender itself);
the payload identity `"i"` appears nowhere in the registry entry, so the
pair `(sender, identity)` is not what gets recorded. -/
theorem peer_register_ignores_identity_cex :
    dGet (PeerRegisterHandler_handle (fun _ => ⟨"i"⟩) (fun _ => [])
          ⟨[], [], 0⟩
          { message_type := "gossip/register", correlation_id := "c",
            content := [], sender := "s" }).1._peered_with_us "s"
        = some ["s"] ∧
      "i" ∉ (["s"] : List String) := by decide

/-- C5 (amended): for every register envelope handled, the handler parses
the payload, calls `register_peer(sender, identity)` — which appends the
SENDER value under the sender key (the parsed identity is never stored) —
and replies with exactly one `gossip/ack` envelope addressed to the sender,
echoing the originator's `correlation_id`, with status OK. -/
theorem peer_register_handler_spec
    (parseRegister : Bytes → PeerRegisterRequest)
    (serializeAck : NetworkAcknowledgement → Bytes)
    (s : NetworkState) (message : Envelope) :
    PeerRegisterHandler_handle parseRegister serializeAck s message
        = ({ s with _peered_with_us := (register_peer s._peered_with_us
               message.sender (parseRegister message.content).identity) },
           [{ sender := message.sender,
              message_type := "gossip/ack",
              correlation_id := message.correlation_id,
              content := serializeAck { status := AckStatus.OK } }]) ∧
      dGet (PeerRegisterHandler_handle parseRegister serializeAck s
              message).1._peered_with_us message.sender
        = some ((dGet s._peered_with_us message.sender).getD []
                  ++ [message.sender]) :=
  ⟨rfl, dGet_register_peer_self s._peered_with_us message.sender
          (parseRegister message.content).identity⟩

/-- C8: for every gossip/msg envelope handled, the handler parses the
payload, appends the parsed item to the inbound queue, notifies the
signature condition exactly once (and `_put_on_inbound` notifies on every
put, from any state), leaves the peer registry alone, and replies with one
`gossip/ack` echoing the originator's `correlation_id` with status OK. -/
theorem gossip_message_handler_spec
    (parseGossip : Bytes → GossipMessage)
    (serializeAck : NetworkAcknowledgement → Bytes)
    (s : NetworkState) (message : Envelope) :
    (GossipMessageHandler_handle parseGossip serializeAck s
          message).1.inbound_queue
        = s.inbound_queue ++ [parseGossip message.content] ∧
      (GossipMessageHandler_handle parseGossip serializeAck s
          message).1.signature_notifications
        = s.signature_notifications + 1 ∧
      (GossipMessageHandler_handle parseGossip serializeAck s
          message).1._peered_with_us
        = s._peered_with_us ∧
      (GossipMessageHandler_handle parseGossip serializeAck s message).2
        = [{ sender := message.sender,
             message_type := "gossip/ack",
             correlation_id := message.correlation_id,
             content := serializeAck { status := AckStatus.OK } }] ∧
      (∀ (s' : NetworkState) (item : GossipMessage),
        (_put_on_inbound s' item).signature_notifications
          = s'.signature_notifications + 1) :=
  ⟨rfl, rfl, rfl, rfl, fun _ _ => rfl⟩

/-! ### Correlation id generation (C9) -/

/-- Python `string.ascii_letters`: the 52 ASCII letters, lowercase first. -/
def ascii_letters : List Char :=
  "abcdefghijklmnopqrstuvwxyzABCDEFGHIJKLMNOPQRSTUVWXYZ".data

/-- The lowercase hexadecimal digits, in order. -/
def hexDigits : List Char := "0123456789abcdef".data

/-- Modelled from the Python standard library: `hexdigest` renders each
digest byte as two lowercase hexadecimal characters. -/
def hexdigest (digest : Bytes) : List Char :=
  digest.flatMap
    (fun b => [hexDigits.getD (b / 16) '0', hexDigits.getD (b % 16) '0'])

/-- The random seed built by `_generate_id`:
`''.join([random.choice(string.ascii_letters) for _ in range(0, 1024)])`,
with the 1024 random draws given by `choice`. -/
def seed_of_choices (choice : Fin 1024 → Fin 52) : List Char :=
  (List.finRange 1024).map (fun k => ascii_letters.getD (choice k).1 'a')

/-- `_generate_id` (network.py lines 70-73), parameterized by the random
draws and by the SHA-512 digest function from `hashlib` (which always
returns 64 bytes): hash the joined seed and render its hex digest. -/
def _generate_id (choice : Fin 1024 → Fin 52) (sha512 : List Char → Bytes) :
    List Char :=
  hexdigest (sha512 (seed_of_choices choice))

theorem hexdigest_length (digest : Bytes) :
    (hexdigest digest).length = 2 * digest.length := by
  induction digest with
  | nil => rfl
  | cons b t ih =>
    simp [hexdigest] at ih ⊢
    omega

theorem hexDigits_getD_mem {n : Nat} (h : n < 16) :
    hexDigits.getD n '0' ∈ hexDigits := by
  interval_cases n <;> decide

/-- C9: every id produced by `_generate_id` is the SHA-512 hex digest of a
random 1024-character alphabetic seed, and is 128 characters long with
every character a lowercase hexadecimal digit — for any digest function
that, like SHA-512, returns 64 bytes. -/
theorem generate_id_hex128 (sha512 : List Char → Bytes)
    (hlen : ∀ s, (sha512 s).length = 64)
    (hbyte : ∀ s, ∀ b ∈ sha512 s, b < 256)
    (choice : Fin 1024 → Fin 52) :
    (seed_of_choices choice).length = 1024 ∧
      (∀ c ∈ seed_of_choices choice, c ∈ ascii_letters) ∧
      _generate_id choice sha512 = hexdigest (sha512 (seed_of_choices choice)) ∧
      (_generate_id choice sha512).length = 128 ∧
      (∀ c ∈ _generate_id choice sha512, c ∈ hexDigits) := by
  refine ⟨by simp [seed_of_choices], ?_, rfl, ?_, ?_⟩
  · intro c hc
    simp only [seed_of_choices, List.mem_map] at hc
    obtain ⟨k, _, hk⟩ := hc
    have hlt : (choice k).1 < ascii_letters.length := by
      simp [ascii_letters]
    rw [← hk, List.getD_eq_getElem ascii_letters 'a' hlt]
    exact List.getElem_mem hlt
  · rw [_generate_id, hexdigest_length, hlen]
  · intro c hc
    simp only [_generate_id, hexdigest, List.mem_flatMap, List.mem_cons,
      List.mem_singleton] at hc
    obtain ⟨b, hb, hc⟩ := hc
    have hb256 : b < 256 := hbyte _ b hb
    have hdiv : b / 16 < 16 := by omega
    have hmod : b % 16 < 16 := Nat.mod_lt _ (by omega)
    rcases hc with hc | hc | hc
    · exact hc ▸ hexDigits_getD_mem hdiv
    · exact hc ▸ hexDigits_getD_mem hmod
    · cases hc

/-- Witness for C9: a concrete digest function returning 64 zero bytes and
the constant-`'a'` seed produce a 128-character id over a 1024-character
seed. -/
theorem generate_id_hex128_witness :
    (seed_of_choices (fun _ => (0 : Fin 52))).length = 1024 ∧
      (_generate_id (fun _ => (0 : Fin 52))
          (fun _ => List.replicate 64 0)).length = 128 :=
  ⟨(generate_id_hex128 (fun _ => List.replicate 64 0)
      (fun _ => by simp)
      (fun _ b hb => by
        rw [List.eq_of_mem_replicate hb]; omega)
      (fun _ => (0 : Fin 52))).1,
   (generate_id_hex128 (fun _ => List.replicate 64 0)
      (fun _ => by simp)
      (fun _ b hb => by
        rw [List.eq_of_mem_replicate hb]; omega)
      (fun _ => (0 : Fin 52))).2.2.2.1⟩

end SawtoothNetwork
